import Mathlib

/-!
# Verification of the `vow` static-analysis repository

This file embeds, in Lean 4, the Python maintenance and test scripts found in
the repository (`fix_duplicates.py`, `fix_missing_suggestions.py`,
`add_none_suggestions.py`, `fix_suggestions.py`, `clean_suggestions.py`,
`test_severity_config.py`), together with a model of the analyzer core that
the specification describes (lexical context tracker, rule catalog, the three
analyzers, the orchestrator and the configuration resolver).

Source text is modelled as `List Char`; Python string operations such as
`split`, `join`, substring containment (`in`) and `re.sub` over the concrete
regular expressions used by the scripts are given executable Lean
counterparts.
-/
/-- Python substring containment: `sub in s`. -/
def containsSub (sub s : List Char) : Bool := decide (sub <:+: s)

/-! ## `fix_duplicates.py` : `remove_duplicate_suggestions`

The script reads a file, splits its content on newline, drops every line
containing one of three literal generic-suggestion substrings, and rejoins
with newline. -/
/-- First literal dropped by `remove_duplicate_suggestions`. -/
def dupLine1 : List Char :=
  ("suggestion: Some(\"Review and fix this issue\".to_string()),").toList

/-- Second literal dropped by `remove_duplicate_suggestions`. -/
def dupLine2 : List Char :=
  ("suggestion: Some(\"Review and fix HTML structure\".to_string()),").toList

/-- Third literal dropped by `remove_duplicate_suggestions`. -/
def dupLine3 : List Char :=
  ("suggestion: Some(\"Fix type mismatch before method call\".to_string()),").toList

/-- A line is kept by `remove_duplicate_suggestions` when it contains none of
the three literals. -/
def keepLine (line : List Char) : Bool :=
  !(containsSub dupLine1 line || containsSub dupLine2 line ||
    containsSub dupLine3 line)

/-- Content transformation of `remove_duplicate_suggestions` in
`fix_duplicates.py`: split on newline, skip the three generic-suggestion
lines via an accumulating loop, rejoin with newline. -/
def remove_duplicate_suggestions (content : List Char) : List Char :=
  let lines := content.splitOn '\n'
  let filtered_lines := lines.foldl
    (fun acc line =>
      if containsSub dupLine1 line then acc
      else if containsSub dupLine2 line then acc
      else if containsSub dupLine3 line then acc
      else acc ++ [line]) []
  List.intercalate ['\n'] filtered_lines

/-- Reference definition, following the claim's words: split the text on
newline, delete every line containing one of the three literal substrings,
rejoin the remaining lines with newline. -/
def removeDupReference (content : List Char) : List Char :=
  List.intercalate ['\n'] ((content.splitOn '\n').filter keepLine)

/-! ## `test_severity_config.py` : `run_vow_command` -/
/-- Outcome of launching a subprocess: either the launch raises
`FileNotFoundError`, or it completes with captured stdout, stderr and return
code. -/
inductive LaunchResult where
  | fnfError : LaunchResult
  | ok : String → String → Int → LaunchResult
deriving DecidableEq

/-- `run_vow_command` from `test_severity_config.py`, with the subprocess
launcher abstracted as an oracle `launch` from (command-line, optional stdin
bytes) to a `LaunchResult`.  The Python code prepends the binary path to the
arguments, passes `input_text.encode()` only when `input_text` is truthy
(non-`None` and non-empty), returns the subprocess's stdout, stderr and
return code, and converts a `FileNotFoundError` into
`("", "vow binary not found", 1)`. -/
def run_vow_command (launch : List String → Option String → LaunchResult)
    (args : List String) (input_text : Option String) : String × String × Int :=
  let cmd := ["./target/release/vow"] ++ args
  let stdin : Option String :=
    match input_text with
    | some s => if s = "" then none else some s
    | none => none
  match launch cmd stdin with
  | LaunchResult.fnfError => ("", "vow binary not found", 1)
  | LaunchResult.ok o e c => (o, e, c)

/-- The command line built by `run_vow_command`. -/
def vowCmd (args : List String) : List String :=
  ["./target/release/vow"] ++ args

/-- The stdin payload passed by `run_vow_command`: Python's
`input_text.encode() if input_text else None` sends bytes only when
`input_text` is non-`None` and non-empty. -/
def vowStdin (input_text : Option String) : Option String :=
  match input_text with
  | some s => if s = "" then none else some s
  | none => none

/-! ## A small backtracking matcher for the scripts' regular expressions

Every regular expression used by the maintenance scripts is a sequence of
literals and greedy character-class repetitions (`[^)]+`, `[^}]*`, `\s*`,
`\s+`, `[^,]+`).  `matchToks` matches such a sequence against a prefix of the
text with Python's greedy-backtracking semantics (longest repetition first),
returning the list of lengths consumed by each token. -/
/-- One token of a script regular expression. -/
inductive Tok where
  | lit : List Char → Tok
  | many0 : (Char → Bool) → Tok
  | many1 : (Char → Bool) → Tok

/-- Length of the maximal prefix run of characters satisfying `p`. -/
def runLen (p : Char → Bool) : List Char → Nat
  | [] => 0
  | c :: cs => if p c then runLen p cs + 1 else 0

/-- Greedy backtracking match of a token sequence against a prefix of
`text`; returns the length consumed by each token. -/
def matchToks : List Tok → List Char → Option (List Nat)
  | [], _ => some []
  | Tok.lit s :: rest, text =>
    if s.isPrefixOf text then
      (matchToks rest (text.drop s.length)).map (fun ls => s.length :: ls)
    else none
  | Tok.many0 p :: rest, text =>
    ((List.range (runLen p text + 1)).reverse).findSome?
      (fun k => (matchToks rest (text.drop k)).map (fun ls => k :: ls))
  | Tok.many1 p :: rest, text =>
    (((List.range (runLen p text)).reverse).map (fun k => k + 1)).findSome?
      (fun k => (matchToks rest (text.drop k)).map (fun ls => k :: ls))

/-- Declarative semantics of one token: which segments it may consume. -/
inductive TokMatch : Tok → List Char → Prop where
  | lit (s : List Char) : TokMatch (Tok.lit s) s
  | many0 (p : Char → Bool) (m : List Char) (h : ∀ c ∈ m, p c) :
      TokMatch (Tok.many0 p) m
  | many1 (p : Char → Bool) (m : List Char) (hne : m ≠ [])
      (h : ∀ c ∈ m, p c) : TokMatch (Tok.many1 p) m

/-- Declarative semantics of a token sequence: the segment splits into
consecutive pieces, one per token. -/
inductive SeqMatch : List Tok → List Char → Prop where
  | nil : SeqMatch [] []
  | cons {t : Tok} {ts : List Tok} {m m2 : List Char} :
      TokMatch t m → SeqMatch ts m2 → SeqMatch (t :: ts) (m ++ m2)

/-- Fuel-indexed worker for `reSub`.  Python's `re.sub` specialised to the
scripts' patterns: scan left to right; at the first position where the token
sequence matches, replace the matched segment by `repl lens segment` and
continue after it; otherwise copy one character and continue.  (A
zero-length match is treated as no match; the scripts' patterns all contain
non-empty literals, so this case never arises for them.)  The fuel only
bounds the recursion; `text.length` is always enough. -/
def reSubF (toks : List Tok) (repl : List Nat → List Char → List Char) :
    Nat → List Char → List Char
  | _, [] => []
  | 0, text => text
  | fuel + 1, c :: rest =>
    match matchToks toks (c :: rest) with
    | some lens =>
      if lens.sum = 0 then c :: reSubF toks repl fuel rest
      else
        repl lens ((c :: rest).take lens.sum) ++
          reSubF toks repl fuel ((c :: rest).drop lens.sum)
    | none => c :: reSubF toks repl fuel rest

/-- Python's `re.sub` for the scripts' patterns. -/
def reSub (toks : List Tok) (repl : List Nat → List Char → List Char)
    (text : List Char) : List Char :=
  reSubF toks repl text.length text

/-- A piece of a substitution decomposition: untouched text, the per-token
lengths of the following match, and the matched segment. -/
def pieceIn (pr : List Char × List Nat × List Char) : List Char :=
  pr.1 ++ pr.2.2

/-- The piece's contribution to the output: the untouched text followed by
the replacement of the matched segment. -/
def pieceOut (repl : List Nat → List Char → List Char)
    (pr : List Char × List Nat × List Char) : List Char :=
  pr.1 ++ repl pr.2.1 pr.2.2

/-! ## Concrete patterns of the four regex-based scripts -/
/-- Python's `\s` class: space, tab, newline, carriage return, form feed,
vertical tab. -/
def isWs (c : Char) : Bool :=
  c = ' ' || c = '\t' || c = '\n' || c = '\r' || c = '\x0b' || c = '\x0c'

/-- The class `[^)]`. -/
def notRParen (c : Char) : Bool := c != ')'

/-- The class `[^}]`. -/
def notRBrace (c : Char) : Bool := c != '\x7d'

/-- The class `[^,]`. -/
def notComma (c : Char) : Bool := c != ','

/-- Pattern of `fix_missing_suggestions.py`: the regular expression
`(rule: Some\([^)]+\),)\s*\n\s*\}\);` — note that it does not require an
enclosing `issues.push(Issue ...)` construction. -/
def fmsToks : List Tok :=
  [Tok.lit (("rule: Some(").toList), Tok.many1 notRParen,
   Tok.lit (("),").toList), Tok.many0 isWs, Tok.lit ['\n'],
   Tok.many0 isWs, Tok.lit (("\x7d);").toList)]

/-- Replacement of `fix_missing_suggestions.py`: group 1 (the first three
tokens) followed by a fixed suggestion line and a re-indented closing
`});`. -/
def fmsRepl (lens : List Nat) (m : List Char) : List Char :=
  m.take (lens.take 3).sum ++
    ("\n                        suggestion: Some(\"Review and fix this issue\".to_string()),\n                    \x7d);").toList

/-- The `re.sub` transformation of `add_missing_suggestions` in
`fix_missing_suggestions.py`. -/
def add_missing_suggestions_sub (content : List Char) : List Char :=
  reSub fmsToks fmsRepl content

/-- Pattern of `add_none_suggestions.py`: the regular expression
`(issues\.push\(Issue \{[^}]*rule: Some\([^)]+\),)\s*(\n\s*\}\);)` — the
brace-free interior may already contain a `suggestion:` field before the
`rule:` field. -/
def ansToks : List Tok :=
  [Tok.lit (("issues.push(Issue \x7b").toList), Tok.many0 notRBrace,
   Tok.lit (("rule: Some(").toList), Tok.many1 notRParen,
   Tok.lit (("),").toList), Tok.many0 isWs, Tok.lit ['\n'],
   Tok.many0 isWs, Tok.lit (("\x7d);").toList)]

/-- Replacement of `add_none_suggestions.py`: group 1 (first five tokens),
the `suggestion: None,` line, then group 2 (tokens six to eight: the final
newline, indentation and `});`); the whitespace matched between the two
groups is dropped. -/
def ansRepl (lens : List Nat) (m : List Char) : List Char :=
  m.take (lens.take 5).sum ++
    ("\n                        suggestion: None,").toList ++
    m.drop (lens.take 6).sum

/-- The `re.sub` transformation of `add_none_suggestions` in
`add_none_suggestions.py`. -/
def add_none_suggestions_sub (content : List Char) : List Char :=
  reSub ansToks ansRepl content

/-- Pattern of `clean_suggestions.py`:
`(\s+suggestion: [^,]+,)\s+suggestion: Some\("Review and fix this issue"\.to_string\(\)\),`. -/
def csToks : List Tok :=
  [Tok.many1 isWs, Tok.lit (("suggestion: ").toList), Tok.many1 notComma,
   Tok.lit ([',']), Tok.many1 isWs,
   Tok.lit (("suggestion: Some(\"Review and fix this issue\".to_string()),").toList)]

/-- Replacement of `clean_suggestions.py`: keep only group 1 (the first four
tokens). -/
def csRepl (lens : List Nat) (m : List Char) : List Char :=
  m.take (lens.take 4).sum

/-- The `re.sub` transformation of `clean_duplicates_in_file` in
`clean_suggestions.py`. -/
def clean_suggestions_sub (content : List Char) : List Char :=
  reSub csToks csRepl content

/-- Pattern of `fix_suggestions.py`:
`issues\.push\(Issue \{\s*severity: [^}]+,\s*message: [^}]+,\s*line: [^}]+,\s*rule: [^}]+,\s*\}\);`. -/
def fsToks : List Tok :=
  [Tok.lit (("issues.push(Issue \x7b").toList), Tok.many0 isWs,
   Tok.lit (("severity: ").toList), Tok.many1 notRBrace, Tok.lit ([',']),
   Tok.many0 isWs,
   Tok.lit (("message: ").toList), Tok.many1 notRBrace, Tok.lit ([',']),
   Tok.many0 isWs,
   Tok.lit (("line: ").toList), Tok.many1 notRBrace, Tok.lit ([',']),
   Tok.many0 isWs,
   Tok.lit (("rule: ").toList), Tok.many1 notRBrace, Tok.lit ([',']),
   Tok.many0 isWs, Tok.lit (("\x7d);").toList)]

/-- Replacement of `fix_suggestions.py`: Python's
`matched_text.replace('});', ...)`, i.e. a literal substitution inside the
matched text. -/
def fsRepl (_lens : List Nat) (m : List Char) : List Char :=
  reSub [Tok.lit (("\x7d);").toList)]
    (fun _ _ =>
      ("suggestion: Some(\"Review and fix this issue\".to_string()),\n                    \x7d);").toList)
    m

/-- The `re.sub` transformation of `fix_issues_in_file` in
`fix_suggestions.py`. -/
def fix_issues_in_file_sub (content : List Char) : List Char :=
  reSub fsToks fsRepl content

/-- A text containing a `rule: Some(...),` construction followed by `});`
but no `issues.push` at all. -/
def noPushInput : List Char := ("rule: Some(a),\n\x7d);").toList

/-! ## File-system model for the scripts' write behaviour (claim C9)

Each script's per-file function reads one file, transforms the content and
writes back only when the content changed; the top-level loop applies it to
every `.rs` entry of `src/analyzers`.  The file system is modelled as a
total map from path to content, and each write is logged. -/
/-- File-system state: content of every path. -/
def FileSys : Type := String → List Char

/-- Point update of a file system. -/
def updateFS (fs : FileSys) (p : String) (c : List Char) : FileSys :=
  fun q => if q = p then c else fs q

/-- Per-file action common to the five scripts: read `file_path`, apply
`transform`, write back only when the result differs.  Returns the new file
system and the list of performed writes. -/
def patchFile (transform : List Char → List Char) (fs : FileSys)
    (file_path : String) : FileSys × List (String × List Char) :=
  let content := fs file_path
  let fixed := transform content
  if fixed ≠ content then (updateFS fs file_path fixed, [(file_path, fixed)])
  else (fs, [])

/-- Python's `file_name.endswith('.rs')`, expressed on the character list
so that it is kernel-computable. -/
def endsWithRs (n : String) : Bool := (".rs").toList.isSuffixOf n.toList

/-- The directory hard-coded in every script. -/
def analyzerDir : String := "src/analyzers"

/-- Top-level loop common to the five scripts: apply the per-file action to
`analyzerDir ++ "/" ++ name` for every directory entry `name` ending in
`.rs`, threading the file system and accumulating the write log. -/
def scriptRun (transform : List Char → List Char) (fs : FileSys)
    (names : List String) : FileSys × List (String × List Char) :=
  (names.filter endsWithRs).foldl
    (fun st name =>
      let r := patchFile transform st.1 (analyzerDir ++ "/" ++ name)
      (r.1, st.2 ++ r.2))
    (fs, [])

/-- `fix_issues_in_file` of `fix_suggestions.py` (read, `re.sub`, conditional
write). -/
def fix_issues_in_file : FileSys → String → FileSys × List (String × List Char) :=
  patchFile fix_issues_in_file_sub

/-- `add_missing_suggestions` of `fix_missing_suggestions.py` as a per-file
action. -/
def add_missing_suggestions_file :
    FileSys → String → FileSys × List (String × List Char) :=
  patchFile add_missing_suggestions_sub

/-- `add_none_suggestions` of `add_none_suggestions.py` as a per-file
action. -/
def add_none_suggestions_file :
    FileSys → String → FileSys × List (String × List Char) :=
  patchFile add_none_suggestions_sub

/-- `clean_duplicates_in_file` of `clean_suggestions.py`. -/
def clean_duplicates_in_file :
    FileSys → String → FileSys × List (String × List Char) :=
  patchFile clean_suggestions_sub

/-- `remove_duplicate_suggestions` of `fix_duplicates.py` as a per-file
action. -/
def remove_duplicate_suggestions_file :
    FileSys → String → FileSys × List (String × List Char) :=
  patchFile remove_duplicate_suggestions

/-- Top-level run of `fix_suggestions.py`. -/
def fix_suggestions_run : FileSys → List String → FileSys × List (String × List Char) :=
  scriptRun fix_issues_in_file_sub

/-- Top-level run of `fix_missing_suggestions.py`. -/
def fix_missing_suggestions_run :
    FileSys → List String → FileSys × List (String × List Char) :=
  scriptRun add_missing_suggestions_sub

/-- Top-level run of `add_none_suggestions.py`. -/
def add_none_suggestions_run :
    FileSys → List String → FileSys × List (String × List Char) :=
  scriptRun add_none_suggestions_sub

/-- Top-level run of `clean_suggestions.py`. -/
def clean_suggestions_run :
    FileSys → List String → FileSys × List (String × List Char) :=
  scriptRun clean_suggestions_sub

/-- Top-level run of `fix_duplicates.py`. -/
def fix_duplicates_run :
    FileSys → List String → FileSys × List (String × List Char) :=
  scriptRun remove_duplicate_suggestions

/-- A per-file action writes only to its own path, and only content that
differs from what it read; and it leaves every other path untouched. -/
def PerFileOnlyTarget
    (F : FileSys → String → FileSys × List (String × List Char)) : Prop :=
  ∀ fs p,
    (∀ e ∈ (F fs p).2, e.1 = p ∧ e.2 ≠ fs p) ∧
    (∀ q, q ≠ p → (F fs p).1 q = fs q)

/-- When the transformation is the identity on the file's content, the file
system is untouched and nothing is written. -/
def PerFileNoIdWrite
    (F : FileSys → String → FileSys × List (String × List Char))
    (transform : List Char → List Char) : Prop :=
  ∀ fs p, transform (fs p) = fs p → F fs p = (fs, [])

/-- A top-level run writes only to `.rs` entries of `src/analyzers` and
leaves every other path identical. -/
def RunOnlyRsInAnalyzers
    (R : FileSys → List String → FileSys × List (String × List Char)) : Prop :=
  ∀ fs names,
    (∀ e ∈ (R fs names).2, ∃ name ∈ names,
      endsWithRs name = true ∧ e.1 = analyzerDir ++ "/" ++ name) ∧
    (∀ q, (∀ name ∈ names,
        ¬(endsWithRs name = true ∧ q = analyzerDir ++ "/" ++ name)) →
      (R fs names).1 q = fs q)

/-- A file system in which every file holds one generic-suggestion line. -/
def constDupFS : FileSys := fun _ => dupLine1

/-! ## The analyzer core, modelled from the specification

The Rust analyzer core (lexical context tracker, rule catalog, analyzers,
orchestrator, configuration resolver) is not part of the Python sources; the
definitions below are modelled from the specification (sections 3-4). -/
/-- Modelled from the spec: the totally ordered severity taxonomy
{Low, Medium, High, Critical}. -/
inductive Severity where
  | low | medium | high | critical
deriving DecidableEq

/-- Modelled from the spec: rank giving the total order on `Severity`. -/
def Severity.rank : Severity → Nat
  | Severity.low => 0
  | Severity.medium => 1
  | Severity.high => 2
  | Severity.critical => 3

/-- Modelled from the spec: `a ≤ b` on severities. -/
def sevLe (a b : Severity) : Bool := a.rank ≤ b.rank

/-- Modelled from the spec: classification of a byte offset by the Lexical
Context Tracker. -/
inductive Ctx where
  | code | lineComment | blockComment | stringLit | templateLit
deriving DecidableEq

/-- Modelled from the spec: rule categories. -/
inductive Category where
  | hallucinatedAPI | security | aiText
deriving DecidableEq

/-- Modelled from the spec: one catalog rule — id, category, literal
pattern, default severity, message, optional suggestion, and whether the
rule is an AI-Text comment-scanning rule (matching inside comment/docstring
spans rather than code). -/
structure Rule where
  id : String
  category : Category
  pattern : List Char
  severity : Severity
  message : String
  suggestion : Option String
  scanDoc : Bool
deriving DecidableEq

/-- Modelled from the spec: one detected problem instance. -/
structure Issue where
  severity : Severity
  message : String
  line : Nat
  rule : String
  suggestion : Option String
deriving DecidableEq

/-- All start offsets at which `pat` occurs in `text`. -/
def occurrences (pat text : List Char) : List Nat :=
  (List.range text.length).filter (fun i => pat.isPrefixOf (text.drop i))

/-- 1-based line number of offset `i` in `text`. -/
def lineOf (text : List Char) (i : Nat) : Nat :=
  1 + ((text.take i).filter (fun c => c = '\n')).length

/-- Modelled from the spec: the lexical contexts in which a rule may fire —
AI-Text comment-scanning rules fire inside comment and docstring spans, all
other rules only at Code-classified offsets. -/
def ctxOk (r : Rule) (c : Ctx) : Bool :=
  if r.scanDoc then
    c == Ctx.lineComment || c == Ctx.blockComment || c == Ctx.stringLit
  else c == Ctx.code

/-- Modelled from the spec: the single Issue factory — an Issue is built
only from a rule together with a concrete match offset, so severity,
message, line, rule id and suggestion are all known at construction. -/
def mkIssue (r : Rule) (text : List Char) (i : Nat) : Issue :=
  { severity := r.severity, message := r.message, line := lineOf text i,
    rule := r.id, suggestion := r.suggestion }

/-- Modelled from the spec: all issues of one rule — every occurrence of the
rule's pattern at an offset whose classification the rule accepts. -/
def ruleIssues (r : Rule) (text : List Char) (ctx : List Ctx) : List Issue :=
  ((occurrences r.pattern text).filter
    (fun i => ctxOk r (ctx.getD i Ctx.code))).map (mkIssue r text)

/-- Modelled from the spec: run a catalog subset over the shared tracker
output. -/
def analyzeRules (rules : List Rule) (text : List Char) (ctx : List Ctx) :
    List Issue :=
  (rules.map (fun r => ruleIssues r text ctx)).flatten

/-- Modelled from the spec: `rules_for` of the Rule Catalog. -/
def rules_for (catalog : List Rule) (cat : Category) : List Rule :=
  catalog.filter (fun r => r.category == cat)

/-- Modelled from the spec: the Hallucinated-API analyzer. -/
def hallucinatedAnalyzer (catalog : List Rule) (text : List Char)
    (ctx : List Ctx) : List Issue :=
  analyzeRules (rules_for catalog Category.hallucinatedAPI) text ctx

/-- Modelled from the spec: the Security analyzer (per the common analyzer
contract, its issues reference Code-classified offsets only). -/
def securityAnalyzer (catalog : List Rule) (text : List Char)
    (ctx : List Ctx) : List Issue :=
  analyzeRules (rules_for catalog Category.security) text ctx

/-- Modelled from the spec: the AI-Text analyzer's comment-scanning rules
(the aggregation of several phrase hits of one block into a single issue is
not modelled; no claim below depends on it). -/
def aiTextAnalyzer (catalog : List Rule) (text : List Char)
    (ctx : List Ctx) : List Issue :=
  analyzeRules (rules_for catalog Category.aiText) text ctx

/-- Modelled from the spec: Python-language rules of the catalog
(hallucinated signatures with their corrective suggestions, the security
families, and AI-Text stock phrases). -/
def pythonRules : List Rule :=
  [ { id := "hallucinated_signature", category := Category.hallucinatedAPI,
      pattern := ("os.path.exist(").toList, severity := Severity.high,
      message := "Call to non-existent method os.path.exist",
      suggestion := some ("Use os.path.exists() instead"), scanDoc := false },
    { id := "hallucinated_signature", category := Category.hallucinatedAPI,
      pattern := ("json.parse(").toList, severity := Severity.high,
      message := "Call to non-existent function json.parse",
      suggestion := some ("Use json.loads() instead"), scanDoc := false },
    { id := "hallucinated_signature", category := Category.hallucinatedAPI,
      pattern := ("json.stringify(").toList, severity := Severity.high,
      message := "Call to non-existent function json.stringify",
      suggestion := some ("Use json.dumps() instead"), scanDoc := false },
    { id := "nonexistent_method", category := Category.hallucinatedAPI,
      pattern := (".push(").toList, severity := Severity.high,
      message := "Python lists have no push method",
      suggestion := some ("Use append() instead"), scanDoc := false },
    { id := "nonexistent_method", category := Category.hallucinatedAPI,
      pattern := (".contains(").toList, severity := Severity.high,
      message := "Python strings have no contains method",
      suggestion := some ("Use the in operator instead"), scanDoc := false },
    { id := "dangerous_eval", category := Category.security,
      pattern := ("eval(").toList, severity := Severity.critical,
      message := "Use of eval", suggestion := none, scanDoc := false },
    { id := "dangerous_system_call", category := Category.security,
      pattern := ("os.system(").toList, severity := Severity.high,
      message := "Direct system command execution", suggestion := none,
      scanDoc := false },
    { id := "dangerous_system_call", category := Category.security,
      pattern := ("subprocess.call(").toList, severity := Severity.high,
      message := "Direct subprocess invocation", suggestion := none,
      scanDoc := false },
    { id := "hardcoded_credential", category := Category.security,
      pattern := ("password = \"").toList, severity := Severity.medium,
      message := "Hardcoded credential literal", suggestion := none,
      scanDoc := false },
    { id := "ai_stock_phrase", category := Category.aiText,
      pattern := ("As an AI").toList, severity := Severity.low,
      message := "AI-generated stock phrase in documentation",
      suggestion := none, scanDoc := true },
    { id := "ai_stock_phrase", category := Category.aiText,
      pattern := ("cutting-edge").toList, severity := Severity.low,
      message := "AI-generated stock phrase in documentation",
      suggestion := none, scanDoc := true },
    { id := "ai_stock_phrase", category := Category.aiText,
      pattern := ("state-of-the-art").toList, severity := Severity.low,
      message := "AI-generated stock phrase in documentation",
      suggestion := none, scanDoc := true } ]

/-- Modelled from the spec: JavaScript-language rules of the catalog. -/
def jsRules : List Rule :=
  [ { id := "hallucinated_signature", category := Category.hallucinatedAPI,
      pattern := (".flatmap(").toList, severity := Severity.high,
      message := "JavaScript arrays have no flatmap method",
      suggestion := some ("Use flatMap() instead"), scanDoc := false },
    { id := "nonexistent_method", category := Category.hallucinatedAPI,
      pattern := (".append(").toList, severity := Severity.high,
      message := "JavaScript arrays have no append method",
      suggestion := some ("Use push() instead"), scanDoc := false },
    { id := "nonexistent_method", category := Category.hallucinatedAPI,
      pattern := (".contains(").toList, severity := Severity.high,
      message := "JavaScript arrays have no contains method",
      suggestion := some ("Use includes() instead"), scanDoc := false },
    { id := "insecure_url", category := Category.security,
      pattern := ("http://").toList, severity := Severity.medium,
      message := "Insecure transport URL", suggestion := none,
      scanDoc := false },
    { id := "ai_stock_phrase", category := Category.aiText,
      pattern := ("cutting-edge").toList, severity := Severity.low,
      message := "AI-generated stock phrase in documentation",
      suggestion := none, scanDoc := true } ]

/-- The full modelled catalog. -/
def vowCatalog : List Rule := pythonRules ++ jsRules

/-- The backtick character (template-literal delimiter). -/
def backTick : Char := Char.ofNat 96

/-- Modelled from the spec: scanner states of the Lexical Context Tracker's
finite state machine for a JavaScript-like profile. -/
inductive JsState where
  | code
  | lineC
  | blockC
  | strQ : Char → Bool → JsState
  | templ

/-- Modelled from the spec: the Lexical Context Tracker for the JavaScript
profile — single left-to-right scan classifying every offset; line comments
`//` run to the next newline (exclusive), block comments `/* */` do not
nest, strings respect backslash escapes, template literals run to the
closing backtick; unterminated spans extend to end of file (fail-open). -/
def scanJSFrom : JsState → List Char → List Ctx
  | _, [] => []
  | JsState.code, '/' :: '/' :: rest =>
    Ctx.lineComment :: Ctx.lineComment :: scanJSFrom JsState.lineC rest
  | JsState.code, '/' :: '*' :: rest =>
    Ctx.blockComment :: Ctx.blockComment :: scanJSFrom JsState.blockC rest
  | JsState.code, c :: rest =>
    if c = '"' || c = '\'' then
      Ctx.stringLit :: scanJSFrom (JsState.strQ c false) rest
    else if c = backTick then
      Ctx.templateLit :: scanJSFrom JsState.templ rest
    else Ctx.code :: scanJSFrom JsState.code rest
  | JsState.lineC, c :: rest =>
    if c = '\n' then Ctx.code :: scanJSFrom JsState.code rest
    else Ctx.lineComment :: scanJSFrom JsState.lineC rest
  | JsState.blockC, '*' :: '/' :: rest =>
    Ctx.blockComment :: Ctx.blockComment :: scanJSFrom JsState.code rest
  | JsState.blockC, _ :: rest =>
    Ctx.blockComment :: scanJSFrom JsState.blockC rest
  | JsState.strQ q true, _ :: rest =>
    Ctx.stringLit :: scanJSFrom (JsState.strQ q false) rest
  | JsState.strQ q false, c :: rest =>
    if c = '\\' then Ctx.stringLit :: scanJSFrom (JsState.strQ q true) rest
    else if c = q then Ctx.stringLit :: scanJSFrom JsState.code rest
    else Ctx.stringLit :: scanJSFrom (JsState.strQ q false) rest
  | JsState.templ, c :: rest =>
    if c = backTick then Ctx.templateLit :: scanJSFrom JsState.code rest
    else Ctx.templateLit :: scanJSFrom JsState.templ rest

/-- Classification of a JavaScript file. -/
def scanJS (text : List Char) : List Ctx := scanJSFrom JsState.code text

/-- Modelled from the spec: scanner states of the tracker for the Python
profile. -/
inductive PyState where
  | code
  | lineC
  | strQ : Char → Bool → PyState
  | strT : Char → PyState

/-- Modelled from the spec: the Lexical Context Tracker for the Python
profile — `#` line comments to the next newline (exclusive), single- and
double-quoted strings with backslash escapes, and triple-quoted strings
(docstrings) classified as string literals; unterminated spans extend to end
of file. -/
def scanPyFrom : PyState → List Char → List Ctx
  | _, [] => []
  | PyState.code, '#' :: rest =>
    Ctx.lineComment :: scanPyFrom PyState.lineC rest
  | PyState.code, '"' :: '"' :: '"' :: rest =>
    Ctx.stringLit :: Ctx.stringLit :: Ctx.stringLit ::
      scanPyFrom (PyState.strT '"') rest
  | PyState.code, '\'' :: '\'' :: '\'' :: rest =>
    Ctx.stringLit :: Ctx.stringLit :: Ctx.stringLit ::
      scanPyFrom (PyState.strT '\'') rest
  | PyState.code, '"' :: rest =>
    Ctx.stringLit :: scanPyFrom (PyState.strQ '"' false) rest
  | PyState.code, '\'' :: rest =>
    Ctx.stringLit :: scanPyFrom (PyState.strQ '\'' false) rest
  | PyState.code, _ :: rest => Ctx.code :: scanPyFrom PyState.code rest
  | PyState.lineC, c :: rest =>
    if c = '\n' then Ctx.code :: scanPyFrom PyState.code rest
    else Ctx.lineComment :: scanPyFrom PyState.lineC rest
  | PyState.strQ q true, _ :: rest =>
    Ctx.stringLit :: scanPyFrom (PyState.strQ q false) rest
  | PyState.strQ q false, c :: rest =>
    if c = '\\' then Ctx.stringLit :: scanPyFrom (PyState.strQ q true) rest
    else if c = q then Ctx.stringLit :: scanPyFrom PyState.code rest
    else Ctx.stringLit :: scanPyFrom (PyState.strQ q false) rest
  | PyState.strT q, c1 :: c2 :: c3 :: rest =>
    if c1 = '\\' then
      Ctx.stringLit :: Ctx.stringLit :: scanPyFrom (PyState.strT q) (c3 :: rest)
    else if c1 = q && c2 = q && c3 = q then
      Ctx.stringLit :: Ctx.stringLit :: Ctx.stringLit ::
        scanPyFrom PyState.code rest
    else Ctx.stringLit :: scanPyFrom (PyState.strT q) (c2 :: c3 :: rest)
  | PyState.strT q, _ :: rest =>
    Ctx.stringLit :: scanPyFrom (PyState.strT q) rest

/-- Classification of a Python file. -/
def scanPython (text : List Char) : List Ctx := scanPyFrom PyState.code text

/-- Modelled from the spec: analyzer selectors of the configuration
(`code`, `text`, `security`). -/
inductive AnalyzerKind where
  | code | text | security
deriving DecidableEq

/-- Modelled from the spec: output formats. -/
inductive OutputFormat where
  | json | human
deriving DecidableEq

/-- Modelled from the spec: the fully resolved run configuration. -/
structure EffectiveConfig where
  enabled_analyzers : List AnalyzerKind
  min_severity : Severity
  output_format : OutputFormat
deriving DecidableEq

/-- Modelled from the spec: per-file result of the Orchestrator. -/
structure AnalysisResult where
  path : String
  issues : List Issue
deriving DecidableEq

/-- Modelled from the spec: the analyzer selected by each kind. -/
def analyzerFor (k : AnalyzerKind) (catalog : List Rule) (text : List Char)
    (ctx : List Ctx) : List Issue :=
  match k with
  | AnalyzerKind.code => hallucinatedAnalyzer catalog text ctx
  | AnalyzerKind.security => securityAnalyzer catalog text ctx
  | AnalyzerKind.text => aiTextAnalyzer catalog text ctx

/-- Lexicographic order on character lists (used to order rule ids). -/
def strLeB : List Char → List Char → Bool
  | [], _ => true
  | _ :: _, [] => false
  | a :: as, b :: bs => if a = b then strLeB as bs else decide (a.toNat < b.toNat)

/-- Sorting key order on issues: ascending line, tie-broken by rule id. -/
def issueLe (a b : Issue) : Bool :=
  decide (a.line < b.line) ||
    (decide (a.line = b.line) && strLeB a.rule.toList b.rule.toList)

/-- Insertion into a sorted issue list. -/
def insertIssue (a : Issue) : List Issue → List Issue
  | [] => [a]
  | b :: bs => if issueLe a b then a :: b :: bs else b :: insertIssue a bs

/-- Deterministic insertion sort by `(line, rule)`. -/
def sortIssues : List Issue → List Issue
  | [] => []
  | a :: as => insertIssue a (sortIssues as)

/-- Modelled from the spec: the Orchestrator's merged, sorted, unfiltered
issue sequence — each enabled analyzer is run over the shared tracker
output, results are concatenated and sorted ascending by (line, rule). -/
def unfilteredIssues (catalog : List Rule) (text : List Char)
    (ctx : List Ctx) (cfg : EffectiveConfig) : List Issue :=
  sortIssues
    ((cfg.enabled_analyzers.map (fun k => analyzerFor k catalog text ctx)).flatten)

/-- Modelled from the spec: the Orchestrator — run the enabled analyzers on
the shared classification, merge, sort by (line, rule), and retain only
issues with severity at or above the configured minimum. -/
def orchestratorRun (catalog : List Rule) (path : String) (text : List Char)
    (ctx : List Ctx) (cfg : EffectiveConfig) : AnalysisResult :=
  { path := path,
    issues := (unfilteredIssues catalog text ctx cfg).filter
      (fun i => sevLe cfg.min_severity i.severity) }

/-- Modelled from the spec: the parsed project configuration file — every
recognized key is optional. -/
structure FileConfig where
  analyzers : Option (List AnalyzerKind)
  min_severity : Option Severity
  output : Option OutputFormat

/-- Modelled from the spec: the CLI override surface — `--min-severity` and
`--format`. -/
structure CliFlags where
  min_severity : Option Severity
  format : Option OutputFormat

/-- Modelled from the spec: built-in defaults (all analyzers enabled, every
severity reported, human output). -/
def builtinDefaults : EffectiveConfig :=
  { enabled_analyzers :=
      [AnalyzerKind.code, AnalyzerKind.text, AnalyzerKind.security],
    min_severity := Severity.low,
    output_format := OutputFormat.human }

/-- Modelled from the spec: the Configuration Resolver — each field is
resolved independently with precedence CLI flag > configuration file value >
built-in default (the CLI has no flag for the analyzer set). -/
def resolveConfig (file : Option FileConfig) (cli : CliFlags) :
    EffectiveConfig :=
  { enabled_analyzers :=
      ((file.bind FileConfig.analyzers).getD builtinDefaults.enabled_analyzers),
    min_severity :=
      ((cli.min_severity.orElse
        (fun _ => file.bind FileConfig.min_severity)).getD
          builtinDefaults.min_severity),
    output_format :=
      ((cli.format.orElse (fun _ => file.bind FileConfig.output)).getD
        builtinDefaults.output_format) }

/-- The JavaScript source text of `debug_test.py`: every mention of
`arr.flatmap()`, `arr.append()`, `arr.push()` and `arr.contains()` lies
inside a comment, a string literal or a template literal. -/
def debugTestContent : List Char :=
  ("\n// Comments should not trigger false positives\n// This comment mentions arr.flatmap() but shouldn\x27t be flagged\n\n/* \n * Multi-line comment with arr.append() example\n * should also not be flagged\n */\n\n// String literals containing method names should not be flagged\nconst message = \"Use arr.push() instead of arr.append()\";\nconsole.log(\"The flatmap method doesn\x27t exist\");\n\n// Template literals\nconst template = `\n    The method arr.contains() doesn\x27t exist in JavaScript.\n    Use arr.includes() instead.\n`;\n").toList

/-- The Python test line of `test_hallucinated.py` containing the call
`os.path.exist("file.txt")` in Code context. -/
def existLine : List Char := ("if os.path.exist(\"file.txt\"):").toList

/-! ## Helper lemmas about `splitOn` and the keep-loop -/
/-- The accumulating loop of `remove_duplicate_suggestions` is a filter. -/
theorem foldl_keep_eq_filter (l : List (List Char)) (acc : List (List Char)) :
    l.foldl
      (fun acc line =>
        if containsSub dupLine1 line then acc
        else if containsSub dupLine2 line then acc
        else if containsSub dupLine3 line then acc
        else acc ++ [line]) acc = acc ++ l.filter keepLine := by
  induction l generalizing acc with
  | nil => simp
  | cons a l ih =>
    simp only [List.foldl_cons, List.filter_cons, keepLine]
    by_cases h1 : containsSub dupLine1 a
    · simp [h1, ih]
    · by_cases h2 : containsSub dupLine2 a
      · simp [h1, h2, ih]
      · by_cases h3 : containsSub dupLine3 a
        · simp [h1, h2, h3, ih]
        · simp [h1, h2, h3, ih]

/-- No piece produced by `splitOnP p` contains an element satisfying `p`. -/
theorem mem_splitOnP_not {α : Type} (p : α → Bool) :
    ∀ (xs : List α), ∀ l ∈ xs.splitOnP p, ∀ a ∈ l, ¬ p a := by
  intro xs
  induction xs with
  | nil =>
    intro l hl
    rw [List.splitOnP_nil] at hl
    rcases List.mem_singleton.mp hl with rfl
    intro a ha
    exact absurd ha (List.not_mem_nil a)
  | cons b bs ih =>
    intro l hl
    rw [List.splitOnP_cons] at hl
    by_cases hb : p b
    · rw [if_pos hb] at hl
      rcases List.mem_cons.mp hl with rfl | h
      · intro a ha; exact absurd ha (List.not_mem_nil a)
      · exact ih l h
    · rw [if_neg hb] at hl
      cases hsp : bs.splitOnP p with
      | nil => exact absurd hsp (List.splitOnP_ne_nil _ bs)
      | cons hd tl =>
        rw [hsp, List.modifyHead_cons] at hl
        rcases List.mem_cons.mp hl with rfl | h
        · intro a ha
          rcases List.mem_cons.mp ha with rfl | ha2
          · exact hb
          · exact ih hd (hsp ▸ List.mem_cons_self hd tl) a ha2
        · exact ih l (hsp ▸ List.mem_cons.mpr (Or.inr h))

/-- No piece produced by `splitOn x` contains `x`. -/
theorem not_mem_of_mem_splitOn {α : Type} [DecidableEq α] {x : α}
    {xs l : List α} (hl : l ∈ xs.splitOn x) : x ∉ l := by
  intro hx
  exact mem_splitOnP_not (fun b => b == x) xs l hl x hx (by simp)

/-- `remove_duplicate_suggestions` written through `filter`. -/
theorem remove_duplicate_suggestions_eq (content : List Char) :
    remove_duplicate_suggestions content = removeDupReference content := by
  simp only [remove_duplicate_suggestions, removeDupReference]
  rw [foldl_keep_eq_filter]
  rfl

/-- Splitting the output of `remove_duplicate_suggestions` recovers the kept
lines, provided some line is kept. -/
theorem splitOn_remove_duplicate_suggestions (content : List Char)
    (h : (content.splitOn '\n').filter keepLine ≠ []) :
    (remove_duplicate_suggestions content).splitOn '\n' =
      (content.splitOn '\n').filter keepLine := by
  rw [remove_duplicate_suggestions_eq]
  unfold removeDupReference
  refine List.splitOn_intercalate _ '\n' ?_ h
  intro l hl
  exact not_mem_of_mem_splitOn (List.mem_of_mem_filter hl)

/-- `remove_duplicate_suggestions` maps the empty content to itself. -/
theorem remove_duplicate_suggestions_nil :
    remove_duplicate_suggestions [] = [] := by decide

/-- `remove_duplicate_suggestions` is idempotent. -/
theorem remove_duplicate_suggestions_idem (content : List Char) :
    remove_duplicate_suggestions (remove_duplicate_suggestions content) =
      remove_duplicate_suggestions content := by
  by_cases h : (content.splitOn '\n').filter keepLine = []
  · have hout : remove_duplicate_suggestions content = [] := by
      rw [remove_duplicate_suggestions_eq]
      unfold removeDupReference
      rw [h]
      rfl
    rw [hout, remove_duplicate_suggestions_nil]
  · rw [remove_duplicate_suggestions_eq (remove_duplicate_suggestions content)]
    unfold removeDupReference
    rw [splitOn_remove_duplicate_suggestions content h]
    rw [List.filter_filter]
    simp only [Bool.and_self]
    exact (remove_duplicate_suggestions_eq content).symm.trans rfl

/-- Claim C8, counterexample: when the content consists of a single line that
contains the first generic-suggestion literal, the output of
`remove_duplicate_suggestions` is the empty text, whose single (empty) line is
not among the input's lines — so the output's lines are not a subsequence of
the input's lines, refuting the subsequence consequence of the claim. -/
theorem claim_C8_counterexample :
    ¬ List.Sublist ((remove_duplicate_suggestions dupLine1).splitOn '\n')
        (dupLine1.splitOn '\n') := by
  intro hsub
  have hmem : ([] : List Char) ∈
      (remove_duplicate_suggestions dupLine1).splitOn '\n' := by decide
  have hmem2 : ([] : List Char) ∈ dupLine1.splitOn '\n' := hsub.subset hmem
  revert hmem2
  decide

/-- Claim C8 (amended): `remove_duplicate_suggestions` equals the reference
definition (split on newline, delete every line containing one of the three
literal substrings, rejoin with newline); the transformation is idempotent;
and whenever at least one line survives the deletion, the output's lines are
a subsequence of the input's lines (when every line is deleted the output is
the empty text, whose line list is `[[]]`). -/
theorem claim_C8_remove_duplicate_suggestions (content : List Char) :
    remove_duplicate_suggestions content = removeDupReference content ∧
    remove_duplicate_suggestions (remove_duplicate_suggestions content) =
      remove_duplicate_suggestions content ∧
    ((content.splitOn '\n').filter keepLine ≠ [] →
      List.Sublist ((remove_duplicate_suggestions content).splitOn '\n')
        (content.splitOn '\n')) := by
  refine ⟨remove_duplicate_suggestions_eq content,
    remove_duplicate_suggestions_idem content, ?_⟩
  intro h
  rw [splitOn_remove_duplicate_suggestions content h]
  exact List.filter_sublist _

/-- Claim C8, witness: the amended theorem applied to a concrete two-line
content in which one line is deleted and one survives. -/
theorem claim_C8_witness :
    ((("keep this line\n").toList ++ dupLine1).splitOn '\n').filter keepLine
        ≠ [] ∧
    List.Sublist ((remove_duplicate_suggestions
        (("keep this line\n").toList ++ dupLine1)).splitOn '\n')
      ((("keep this line\n").toList ++ dupLine1).splitOn '\n') :=
  ⟨by decide,
    (claim_C8_remove_duplicate_suggestions
      (("keep this line\n").toList ++ dupLine1)).2.2 (by decide)⟩

/-- Claim C10: `run_vow_command` never propagates `FileNotFoundError`.  For
every launcher behaviour, argument list and optional input text: if the
launch raises `FileNotFoundError` the function returns
`("", "vow binary not found", 1)`, and otherwise it returns exactly the
subprocess's stdout, stderr and return code. -/
theorem claim_C10_run_vow_command
    (launch : List String → Option String → LaunchResult)
    (args : List String) (input_text : Option String) :
    (launch (vowCmd args) (vowStdin input_text) = LaunchResult.fnfError →
      run_vow_command launch args input_text = ("", "vow binary not found", 1))
    ∧
    (∀ o e c, launch (vowCmd args) (vowStdin input_text) = LaunchResult.ok o e c →
      run_vow_command launch args input_text = (o, e, c)) := by
  constructor
  · intro h
    simp only [run_vow_command, vowCmd, vowStdin] at h ⊢
    rw [h]
  · intro o e c h
    simp only [run_vow_command, vowCmd, vowStdin] at h ⊢
    rw [h]

/-- Claim C10, witness: the theorem applied to a launcher that always raises
`FileNotFoundError` and to one that always succeeds. -/
theorem claim_C10_witness :
    run_vow_command (fun _ _ => LaunchResult.fnfError) ["check"] none =
      ("", "vow binary not found", 1) ∧
    run_vow_command (fun _ _ => LaunchResult.ok ("out") ("err") 0)
      ["check"] (some ("text")) = ("out", "err", 0) :=
  ⟨(claim_C10_run_vow_command (fun _ _ => LaunchResult.fnfError)
      ["check"] none).1 rfl,
    (claim_C10_run_vow_command (fun _ _ => LaunchResult.ok ("out") ("err") 0)
      ["check"] (some ("text"))).2 ("out") ("err") 0 rfl⟩

/-- The maximal run satisfying `p` is no longer than the text. -/
theorem runLen_le_length (p : Char → Bool) :
    ∀ (text : List Char), runLen p text ≤ text.length := by
  intro text
  induction text with
  | nil => simp [runLen]
  | cons c cs ih =>
    simp only [runLen, List.length_cons]
    by_cases h : p c
    · simpa [h] using Nat.succ_le_succ ih
    · simp [h]

/-- Characters inside the maximal run satisfy `p`. -/
theorem mem_take_runLen (p : Char → Bool) :
    ∀ (text : List Char) (k : Nat), k ≤ runLen p text →
      ∀ c ∈ text.take k, p c := by
  intro text
  induction text with
  | nil => intro k _ c hc; simp at hc
  | cons b bs ih =>
    intro k hk c hc
    by_cases hb : p b
    · simp only [runLen, hb, if_true] at hk
      cases k with
      | zero => simp at hc
      | succ k' =>
        rw [List.take_succ_cons] at hc
        rcases List.mem_cons.mp hc with rfl | hc2
        · exact hb
        · exact ih k' (Nat.le_of_succ_le_succ hk) c hc2
    · simp only [runLen, hb, if_false] at hk
      rcases Nat.le_zero.mp hk with rfl
      simp at hc

/-- Soundness of the matcher: a successful match consumes at most the whole
text, and the consumed prefix satisfies the declarative semantics. -/
theorem matchToks_sound :
    ∀ (toks : List Tok) (text : List Char) (lens : List Nat),
      matchToks toks text = some lens →
      lens.sum ≤ text.length ∧ SeqMatch toks (text.take lens.sum) := by
  intro toks
  induction toks with
  | nil =>
    intro text lens h
    simp only [matchToks, Option.some.injEq] at h
    subst h
    exact ⟨Nat.zero_le _, by simpa using SeqMatch.nil⟩
  | cons t ts ih =>
    intro text lens h
    cases t with
    | lit s =>
      simp only [matchToks] at h
      by_cases hp : s.isPrefixOf text
      · rw [if_pos hp] at h
        obtain ⟨ls, hls, rfl⟩ := Option.map_eq_some'.mp h
        obtain ⟨t', rfl⟩ := List.isPrefixOf_iff_prefix.mp hp
        rw [List.drop_left s t'] at hls
        obtain ⟨hle, hsm⟩ := ih t' ls hls
        constructor
        · simp only [List.sum_cons, List.length_append]
          exact Nat.add_le_add_left hle s.length
        · rw [List.sum_cons, List.take_add, List.take_left s t',
            List.drop_left s t']
          exact SeqMatch.cons (TokMatch.lit s) hsm
      · rw [if_neg hp] at h
        cases h
    | many0 p =>
      simp only [matchToks] at h
      obtain ⟨k, hk, hf⟩ := List.exists_of_findSome?_eq_some h
      obtain ⟨ls, hls, rfl⟩ := Option.map_eq_some'.mp hf
      have hkr : k ≤ runLen p text := by
        have := List.mem_range.mp (List.mem_reverse.mp hk)
        omega
      have hkl : k ≤ text.length := le_trans hkr (runLen_le_length p text)
      obtain ⟨hle, hsm⟩ := ih (text.drop k) ls hls
      rw [List.length_drop] at hle
      constructor
      · simp only [List.sum_cons]
        omega
      · rw [List.sum_cons, List.take_add]
        refine SeqMatch.cons (TokMatch.many0 p (text.take k) ?_) hsm
        exact mem_take_runLen p text k hkr
    | many1 p =>
      simp only [matchToks] at h
      obtain ⟨k, hk, hf⟩ := List.exists_of_findSome?_eq_some h
      obtain ⟨ls, hls, rfl⟩ := Option.map_eq_some'.mp hf
      obtain ⟨k', hk', rfl⟩ := List.mem_map.mp hk
      have hkr : k' + 1 ≤ runLen p text := by
        have := List.mem_range.mp (List.mem_reverse.mp hk')
        omega
      have hkl : k' + 1 ≤ text.length :=
        le_trans hkr (runLen_le_length p text)
      obtain ⟨hle, hsm⟩ := ih (text.drop (k' + 1)) ls hls
      rw [List.length_drop] at hle
      constructor
      · simp only [List.sum_cons]
        omega
      · rw [List.sum_cons, List.take_add]
        refine SeqMatch.cons
          (TokMatch.many1 p (text.take (k' + 1)) ?_ ?_) hsm
        · have : (text.take (k' + 1)).length = k' + 1 := by
            rw [List.length_take]
            omega
          intro hnil
          rw [hnil] at this
          simp at this
        · exact mem_take_runLen p text (k' + 1) hkr

theorem reSubF_nil (toks : List Tok)
    (repl : List Nat → List Char → List Char) (n : Nat) :
    reSubF toks repl n [] = [] := by
  cases n <;> rfl

theorem reSubF_succ_cons_none {toks : List Tok} {c : Char} {rest : List Char}
    (repl : List Nat → List Char → List Char) (n : Nat)
    (hm : matchToks toks (c :: rest) = none) :
    reSubF toks repl (n + 1) (c :: rest) = c :: reSubF toks repl n rest := by
  simp only [reSubF, hm]

theorem reSubF_succ_cons_zero {toks : List Tok} {c : Char}
    {rest : List Char} {lens : List Nat}
    (repl : List Nat → List Char → List Char) (n : Nat)
    (hm : matchToks toks (c :: rest) = some lens) (h0 : lens.sum = 0) :
    reSubF toks repl (n + 1) (c :: rest) = c :: reSubF toks repl n rest := by
  simp only [reSubF, hm, h0, if_true]

theorem reSubF_succ_cons_pos {toks : List Tok} {c : Char}
    {rest : List Char} {lens : List Nat}
    (repl : List Nat → List Char → List Char) (n : Nat)
    (hm : matchToks toks (c :: rest) = some lens) (h0 : lens.sum ≠ 0) :
    reSubF toks repl (n + 1) (c :: rest) =
      repl lens ((c :: rest).take lens.sum) ++
        reSubF toks repl n ((c :: rest).drop lens.sum) := by
  simp only [reSubF, hm, h0, if_false]

/-- Substitution decomposition for the fuel-indexed worker, for any
sufficient fuel. -/
theorem reSubF_decomp (toks : List Tok)
    (repl : List Nat → List Char → List Char) :
    ∀ (fuel : Nat) (text : List Char), text.length ≤ fuel →
      ∃ (pieces : List (List Char × List Nat × List Char)) (tail : List Char),
        text = (pieces.map pieceIn).flatten ++ tail ∧
        reSubF toks repl fuel text =
          (pieces.map (pieceOut repl)).flatten ++ tail ∧
        ∀ pr ∈ pieces, pr.2.2 ≠ [] ∧ SeqMatch toks pr.2.2 := by
  intro fuel
  induction fuel with
  | zero =>
    intro text hlen
    rcases List.eq_nil_of_length_eq_zero (Nat.le_zero.mp hlen) with rfl
    exact ⟨[], [], by simp, by simp [reSubF_nil], by simp⟩
  | succ f ih =>
    intro text hlen
    cases text with
    | nil =>
      exact ⟨[], [], by simp, by simp [reSubF_nil], by simp⟩
    | cons c rest =>
      have hrest : rest.length ≤ f := by
        simp only [List.length_cons] at hlen
        omega
      have hskip : ∀ (_ : reSubF toks repl (f + 1) (c :: rest) =
            c :: reSubF toks repl f rest),
          ∃ (pieces : List (List Char × List Nat × List Char))
            (tail : List Char),
            c :: rest = (pieces.map pieceIn).flatten ++ tail ∧
            reSubF toks repl (f + 1) (c :: rest) =
              (pieces.map (pieceOut repl)).flatten ++ tail ∧
            ∀ pr ∈ pieces, pr.2.2 ≠ [] ∧ SeqMatch toks pr.2.2 := by
        intro heq
        obtain ⟨ps, tl, h1, h2, h3⟩ := ih rest hrest
        cases ps with
        | nil =>
          refine ⟨[], c :: tl, ?_, ?_, by simp⟩
          · simpa using congrArg (c :: ·) h1
          · rw [heq]
            simpa using congrArg (c :: ·) h2
        | cons p ps' =>
          refine ⟨(c :: p.1, p.2) :: ps', tl, ?_, ?_, ?_⟩
          · simp only [List.map_cons, List.flatten_cons, pieceIn] at h1 ⊢
            simp [h1]
          · rw [heq]
            simp only [List.map_cons, List.flatten_cons, pieceOut] at h2 ⊢
            simp [h2]
          · intro pr hpr
            rcases List.mem_cons.mp hpr with rfl | hpr2
            · exact h3 p (List.mem_cons_self p ps')
            · exact h3 pr (List.mem_cons.mpr (Or.inr hpr2))
      cases hm : matchToks toks (c :: rest) with
      | none => exact hskip (reSubF_succ_cons_none repl f hm)
      | some lens =>
        by_cases h0 : lens.sum = 0
        · exact hskip (reSubF_succ_cons_zero repl f hm h0)
        · have hsound := matchToks_sound toks (c :: rest) lens hm
          have hdrop : ((c :: rest).drop lens.sum).length ≤ f := by
            rw [List.length_drop]
            simp only [List.length_cons] at hlen ⊢
            omega
          obtain ⟨ps, tl, h1, h2, h3⟩ := ih ((c :: rest).drop lens.sum) hdrop
          refine ⟨([], lens, (c :: rest).take lens.sum) :: ps, tl, ?_, ?_, ?_⟩
          · simp only [List.map_cons, List.flatten_cons, pieceIn,
              List.nil_append, List.append_assoc]
            rw [← h1, List.take_append_drop]
          · rw [reSubF_succ_cons_pos repl f hm h0]
            simp only [List.map_cons, List.flatten_cons, pieceOut,
              List.nil_append, List.append_assoc]
            rw [← h2]
          · intro pr hpr
            rcases List.mem_cons.mp hpr with rfl | hpr2
            · constructor
              · have hl : ((c :: rest).take lens.sum).length = lens.sum := by
                  rw [List.length_take]
                  exact Nat.min_eq_left hsound.1
                intro hnil
                have hnil2 : (c :: rest).take lens.sum = [] := hnil
                rw [hnil2] at hl
                simp only [List.length_nil] at hl
                exact h0 hl.symm
              · exact hsound.2
            · exact h3 pr hpr2

/-- Substitution decomposition: `reSub` splits the input into alternating
untouched stretches and non-empty segments matching the pattern; the output
is the same sequence with each matched segment replaced and every untouched
character kept verbatim, in order. -/
theorem reSub_decomp (toks : List Tok)
    (repl : List Nat → List Char → List Char) (text : List Char) :
    ∃ (pieces : List (List Char × List Nat × List Char)) (tail : List Char),
      text = (pieces.map pieceIn).flatten ++ tail ∧
      reSub toks repl text = (pieces.map (pieceOut repl)).flatten ++ tail ∧
      ∀ pr ∈ pieces, pr.2.2 ≠ [] ∧ SeqMatch toks pr.2.2 :=
  reSubF_decomp toks repl text.length text le_rfl

/-- Claim C7, counterexample: `add_missing_suggestions` (the `re.sub` of
`fix_missing_suggestions.py`) rewrites a text that contains no
`issues.push(Issue ...)` construction whatsoever, so the transformation does
not change the text only inside `issues.push(Issue { ... })` constructions
as claimed. -/
theorem claim_C7_counterexample :
    add_missing_suggestions_sub noPushInput ≠ noPushInput ∧
    containsSub (("issues.push").toList) noPushInput = false := by
  decide

/-- Claim C7 (amended): each transformation decomposes its input into
alternating untouched stretches and non-empty segments matching its own
regular expression, every untouched character appearing unchanged and in
order in the output, and each matched segment being replaced by the
segment with a `suggestion:` line inserted after the `rule:` field.  For
`add_missing_suggestions` the matched construction is any
`rule: Some(...),` immediately followed by whitespace containing a newline
and `});` — an enclosing `issues.push` is *not* required, and the closing
`});` indentation is rewritten; for `add_none_suggestions` the matched
construction is an `issues.push(Issue {` block with brace-free interior
ending in `rule: Some(...),` — which may already contain a `suggestion:`
field. -/
theorem claim_C7_add_suggestions (text : List Char) :
    (∃ (pieces : List (List Char × List Nat × List Char)) (tail : List Char),
      text = (pieces.map pieceIn).flatten ++ tail ∧
      add_missing_suggestions_sub text =
        (pieces.map (pieceOut fmsRepl)).flatten ++ tail ∧
      ∀ pr ∈ pieces, pr.2.2 ≠ [] ∧ SeqMatch fmsToks pr.2.2) ∧
    (∃ (pieces : List (List Char × List Nat × List Char)) (tail : List Char),
      text = (pieces.map pieceIn).flatten ++ tail ∧
      add_none_suggestions_sub text =
        (pieces.map (pieceOut ansRepl)).flatten ++ tail ∧
      ∀ pr ∈ pieces, pr.2.2 ≠ [] ∧ SeqMatch ansToks pr.2.2) := by
  constructor
  · simpa only [add_missing_suggestions_sub] using
      reSub_decomp fmsToks fmsRepl text
  · simpa only [add_none_suggestions_sub] using
      reSub_decomp ansToks ansRepl text

/-- Any `patchFile` instance satisfies `PerFileOnlyTarget`. -/
theorem patchFile_onlyTarget (t : List Char → List Char) :
    PerFileOnlyTarget (patchFile t) := by
  intro fs p
  constructor
  · intro e he
    simp only [patchFile] at he
    by_cases h : t (fs p) ≠ fs p
    · rw [if_pos h] at he
      rcases List.mem_singleton.mp he with rfl
      exact ⟨rfl, h⟩
    · rw [if_neg h] at he
      exact absurd he (List.not_mem_nil e)
  · intro q hq
    simp only [patchFile]
    by_cases h : t (fs p) ≠ fs p
    · rw [if_pos h]
      simp only [updateFS, if_neg hq]
    · rw [if_neg h]

/-- Any `patchFile` instance satisfies `PerFileNoIdWrite` for its own
transformation. -/
theorem patchFile_noIdWrite (t : List Char → List Char) :
    PerFileNoIdWrite (patchFile t) t := by
  intro fs p h
  simp only [patchFile]
  rw [if_neg (by simpa using h)]

/-- Frame property of the fold inside `scriptRun`. -/
theorem scriptRun_fold_frame (t : List Char → List Char) :
    ∀ (l : List String) (fs : FileSys) (log : List (String × List Char))
      (q : String), (∀ n ∈ l, q ≠ analyzerDir ++ "/" ++ n) →
      (l.foldl
        (fun st name =>
          let r := patchFile t st.1 (analyzerDir ++ "/" ++ name)
          (r.1, st.2 ++ r.2)) (fs, log)).1 q = fs q := by
  intro l
  induction l with
  | nil => intro fs log q _; rfl
  | cons n l ih =>
    intro fs log q hq
    simp only [List.foldl_cons]
    rw [ih _ _ q (fun m hm => hq m (List.mem_cons.mpr (Or.inr hm)))]
    exact (patchFile_onlyTarget t fs (analyzerDir ++ "/" ++ n)).2 q
      (hq n (List.mem_cons_self n l))

/-- Write-log characterisation of the fold inside `scriptRun`. -/
theorem scriptRun_fold_writes (t : List Char → List Char) :
    ∀ (l : List String) (fs : FileSys) (log : List (String × List Char))
      (e : String × List Char),
      e ∈ (l.foldl
        (fun st name =>
          let r := patchFile t st.1 (analyzerDir ++ "/" ++ name)
          (r.1, st.2 ++ r.2)) (fs, log)).2 →
      e ∈ log ∨ ∃ n ∈ l, e.1 = analyzerDir ++ "/" ++ n := by
  intro l
  induction l with
  | nil => intro fs log e he; exact Or.inl he
  | cons n l ih =>
    intro fs log e he
    simp only [List.foldl_cons] at he
    rcases ih _ _ e he with hlog | ⟨m, hm, hp⟩
    · rcases List.mem_append.mp hlog with h1 | h2
      · exact Or.inl h1
      · refine Or.inr ⟨n, List.mem_cons_self n l, ?_⟩
        exact ((patchFile_onlyTarget t fs (analyzerDir ++ "/" ++ n)).1 e h2).1
    · exact Or.inr ⟨m, List.mem_cons.mpr (Or.inr hm), hp⟩

/-- Any `scriptRun` instance satisfies `RunOnlyRsInAnalyzers`. -/
theorem scriptRun_onlyRs (t : List Char → List Char) :
    RunOnlyRsInAnalyzers (scriptRun t) := by
  intro fs names
  constructor
  · intro e he
    rcases scriptRun_fold_writes t _ fs [] e he with h | ⟨n, hn, hp⟩
    · exact absurd h (List.not_mem_nil e)
    · have hmem := List.mem_filter.mp hn
      exact ⟨n, hmem.1, by simpa using hmem.2, hp⟩
  · intro q hq
    refine scriptRun_fold_frame t _ fs [] q ?_
    intro n hn heq
    have hmem := List.mem_filter.mp hn
    exact hq n hmem.1 ⟨by simpa using hmem.2, heq⟩

/-- Claim C9: each per-file patch function writes only to the single path it
was given and only content differing from what it read; when its
transformation is the identity on the content the file system is returned
untouched with no write; and each script's top-level loop touches only
`.rs` entries of `src/analyzers`, leaving every other path identical. -/
theorem claim_C9_write_discipline :
    (PerFileOnlyTarget fix_issues_in_file ∧
     PerFileOnlyTarget add_missing_suggestions_file ∧
     PerFileOnlyTarget add_none_suggestions_file ∧
     PerFileOnlyTarget clean_duplicates_in_file ∧
     PerFileOnlyTarget remove_duplicate_suggestions_file) ∧
    (PerFileNoIdWrite fix_issues_in_file fix_issues_in_file_sub ∧
     PerFileNoIdWrite add_missing_suggestions_file add_missing_suggestions_sub ∧
     PerFileNoIdWrite add_none_suggestions_file add_none_suggestions_sub ∧
     PerFileNoIdWrite clean_duplicates_in_file clean_suggestions_sub ∧
     PerFileNoIdWrite remove_duplicate_suggestions_file
       remove_duplicate_suggestions) ∧
    (RunOnlyRsInAnalyzers fix_suggestions_run ∧
     RunOnlyRsInAnalyzers fix_missing_suggestions_run ∧
     RunOnlyRsInAnalyzers add_none_suggestions_run ∧
     RunOnlyRsInAnalyzers clean_suggestions_run ∧
     RunOnlyRsInAnalyzers fix_duplicates_run) :=
  ⟨⟨patchFile_onlyTarget _, patchFile_onlyTarget _, patchFile_onlyTarget _,
    patchFile_onlyTarget _, patchFile_onlyTarget _⟩,
   ⟨patchFile_noIdWrite _, patchFile_noIdWrite _, patchFile_noIdWrite _,
    patchFile_noIdWrite _, patchFile_noIdWrite _⟩,
   ⟨scriptRun_onlyRs _, scriptRun_onlyRs _, scriptRun_onlyRs _,
    scriptRun_onlyRs _, scriptRun_onlyRs _⟩⟩

/-- Claim C9, witness: the theorem applied to a concrete file system whose
files hold one generic-suggestion line — `fix_duplicates.py` deletes that
line, so a write with empty content occurs at the given path; a transform
that leaves the content unchanged performs no write; and a run on the
directory listing `["a.rs", "b.txt"]` leaves an unrelated path
untouched. -/
theorem claim_C9_witness :
    (("p", ([] : List Char)).1 = "p" ∧
      ("p", ([] : List Char)).2 ≠ constDupFS ("p")) ∧
    add_missing_suggestions_file constDupFS ("x") = (constDupFS, []) ∧
    (fix_duplicates_run constDupFS ["a.rs", "b.txt"]).1 ("other") =
      constDupFS ("other") ∧
    (∃ name ∈ (["a.rs", "b.txt"] : List String),
      endsWithRs name = true ∧
      ("src/analyzers/a.rs", ([] : List Char)).1 =
        analyzerDir ++ "/" ++ name) := by
  have H := claim_C9_write_discipline
  refine ⟨?_, ?_, ?_, ?_⟩
  · exact (H.1.2.2.2.2 constDupFS ("p")).1 ("p", []) (by decide)
  · exact H.2.1.2.1 constDupFS ("x") (by decide)
  · exact (H.2.2.2.2.2.2 constDupFS ["a.rs", "b.txt"]).2 ("other")
      (by decide)
  · exact (H.2.2.2.2.2.2 constDupFS ["a.rs", "b.txt"]).1
      ("src/analyzers/a.rs", []) (by decide)

set_option maxRecDepth 40000 in
/-- Claim C1: a rule whose pattern occurs only at offsets classified as
LineComment, BlockComment, StringLiteral or TemplateLiteral (and that is not
an AI-Text comment-scanning rule) produces no issue, for every source text
and every classification; in particular, on the JavaScript text of
`debug_test.py` — where `arr.flatmap()`, `arr.append()`, `arr.push()` and
`arr.contains()` appear only inside comments, string and template literals —
the Hallucinated-API and Security analyzers produce no issue at all (hence
none with rules `hallucinated_signature` or `nonexistent_method`). -/
theorem claim_C1_context_shielding :
    (∀ (text : List Char) (ctx : List Ctx) (r : Rule), r.scanDoc = false →
      (∀ i ∈ occurrences r.pattern text,
        ctx.getD i Ctx.code ∈
          [Ctx.lineComment, Ctx.blockComment, Ctx.stringLit,
            Ctx.templateLit]) →
      ruleIssues r text ctx = []) ∧
    hallucinatedAnalyzer jsRules debugTestContent (scanJS debugTestContent)
      = [] ∧
    securityAnalyzer jsRules debugTestContent (scanJS debugTestContent)
      = [] := by
  refine ⟨?_, by decide, by decide⟩
  intro text ctx r hs hocc
  have hfil : (occurrences r.pattern text).filter
      (fun i => ctxOk r (ctx.getD i Ctx.code)) = [] := by
    refine List.filter_eq_nil_iff.mpr ?_
    intro i hi
    have hmem := hocc i hi
    have hne : ctx.getD i Ctx.code ≠ Ctx.code := by
      intro hEq
      rw [hEq] at hmem
      exact absurd hmem (by decide)
    simpa [ctxOk, hs] using hne
  simp only [ruleIssues, hfil, List.map_nil]

/-- Claim C1, witness: the general part applied to the `.flatmap(` rule on a
one-line comment mentioning `arr.flatmap()`. -/
theorem claim_C1_witness :
    (∀ i ∈ occurrences ((".flatmap(").toList) (("// arr.flatmap()").toList),
      (scanJS (("// arr.flatmap()").toList)).getD i Ctx.code ∈
        [Ctx.lineComment, Ctx.blockComment, Ctx.stringLit,
          Ctx.templateLit]) ∧
    ruleIssues
      { id := "hallucinated_signature", category := Category.hallucinatedAPI,
        pattern := (".flatmap(").toList, severity := Severity.high,
        message := "JavaScript arrays have no flatmap method",
        suggestion := some ("Use flatMap() instead"), scanDoc := false }
      (("// arr.flatmap()").toList)
      (scanJS (("// arr.flatmap()").toList)) = [] :=
  ⟨by decide,
    claim_C1_context_shielding.1 (("// arr.flatmap()").toList)
      (scanJS (("// arr.flatmap()").toList))
      { id := "hallucinated_signature", category := Category.hallucinatedAPI,
        pattern := (".flatmap(").toList, severity := Severity.high,
        message := "JavaScript arrays have no flatmap method",
        suggestion := some ("Use flatMap() instead"), scanDoc := false }
      rfl (by decide)⟩

/-- Membership in an analyzer's output comes from a rule of the subset and
an occurrence at an accepted offset, built by the single Issue factory. -/
theorem mem_analyzeRules {rules : List Rule} {text : List Char}
    {ctx : List Ctx} {issue : Issue}
    (h : issue ∈ analyzeRules rules text ctx) :
    ∃ r ∈ rules, ∃ i ∈ occurrences r.pattern text,
      ctxOk r (ctx.getD i Ctx.code) = true ∧ issue = mkIssue r text i := by
  simp only [analyzeRules, List.mem_flatten, List.mem_map] at h
  obtain ⟨l, ⟨r, hr, rfl⟩, hl⟩ := h
  simp only [ruleIssues, List.mem_map, List.mem_filter] at hl
  obtain ⟨i, ⟨hi, hctx⟩, rfl⟩ := hl
  exact ⟨r, hr, i, hi, hctx, rfl⟩

/-- Every rule of the modelled catalog has a non-empty id and message, and
only AI-Text rules scan documentation spans. -/
theorem vowCatalog_wellFormed :
    ∀ r ∈ vowCatalog, r.id ≠ "" ∧ r.message ≠ "" ∧
      (r.scanDoc = true → r.category = Category.aiText) := by
  decide

/-- Claim C2: every issue produced by any of the three analyzers over the
modelled catalog carries a non-empty rule id, a non-empty message and a line
at least 1; it is built by the single Issue factory `mkIssue` from a rule
and a concrete match offset — so severity, message, line, rule and
suggestion are all known at construction and no partial issue exists — and
that offset is classified as Code unless the rule is an AI-Text
comment-scanning rule, in which case the offset lies in a comment or
docstring span. -/
theorem claim_C2_issue_invariants (text : List Char) (ctx : List Ctx)
    (issue : Issue)
    (hmem : issue ∈ hallucinatedAnalyzer vowCatalog text ctx ++
      securityAnalyzer vowCatalog text ctx ++
      aiTextAnalyzer vowCatalog text ctx) :
    issue.rule ≠ "" ∧ issue.message ≠ "" ∧ 1 ≤ issue.line ∧
    ∃ r ∈ vowCatalog, ∃ i ∈ occurrences r.pattern text,
      issue = mkIssue r text i ∧ issue.line = lineOf text i ∧
      (ctx.getD i Ctx.code = Ctx.code ∨
        (r.category = Category.aiText ∧ r.scanDoc = true ∧
          ctx.getD i Ctx.code ∈
            [Ctx.lineComment, Ctx.blockComment, Ctx.stringLit])) := by
  have hmem2 : ∃ cat : Category,
      issue ∈ analyzeRules (rules_for vowCatalog cat) text ctx := by
    rcases List.mem_append.mp hmem with h1 | h2
    · rcases List.mem_append.mp h1 with ha | hb
      · exact ⟨Category.hallucinatedAPI, ha⟩
      · exact ⟨Category.security, hb⟩
    · exact ⟨Category.aiText, h2⟩
  obtain ⟨cat, hm⟩ := hmem2
  obtain ⟨r, hr, i, hi, hctx, rfl⟩ := mem_analyzeRules hm
  have hrcat : r ∈ vowCatalog := (List.mem_filter.mp hr).1
  obtain ⟨hid, hmsg, hdoc⟩ := vowCatalog_wellFormed r hrcat
  refine ⟨hid, hmsg, Nat.le_add_right 1 _, r, hrcat, i, hi, rfl, rfl, ?_⟩
  by_cases hsd : r.scanDoc
  · refine Or.inr ⟨hdoc hsd, hsd, ?_⟩
    rw [ctxOk, if_pos hsd] at hctx
    rcases Bool.or_eq_true_iff.mp hctx with h | h
    · rcases Bool.or_eq_true_iff.mp h with h2 | h2
      · simp only [beq_iff_eq] at h2
        rw [h2]
        decide
      · simp only [beq_iff_eq] at h2
        rw [h2]
        decide
    · simp only [beq_iff_eq] at h
      rw [h]
      decide
  · refine Or.inl ?_
    rw [ctxOk, if_neg hsd] at hctx
    exact beq_iff_eq.mp hctx

/-- Claim C2, witness: the invariant theorem applied to the issue the
Security analyzer produces for `eval(x)`. -/
theorem claim_C2_witness :
    ({ severity := Severity.critical, message := "Use of eval", line := 1,
       rule := "dangerous_eval", suggestion := none } : Issue) ∈
        hallucinatedAnalyzer vowCatalog (("eval(x)").toList)
          (scanPython (("eval(x)").toList)) ++
        securityAnalyzer vowCatalog (("eval(x)").toList)
          (scanPython (("eval(x)").toList)) ++
        aiTextAnalyzer vowCatalog (("eval(x)").toList)
          (scanPython (("eval(x)").toList)) ∧
    ({ severity := Severity.critical, message := "Use of eval", line := 1,
       rule := "dangerous_eval", suggestion := none } : Issue).rule ≠ "" ∧
    1 ≤ ({ severity := Severity.critical, message := "Use of eval",
           line := 1, rule := "dangerous_eval",
           suggestion := none } : Issue).line :=
  ⟨by decide,
    (claim_C2_issue_invariants (("eval(x)").toList)
      (scanPython (("eval(x)").toList))
      { severity := Severity.critical, message := "Use of eval", line := 1,
        rule := "dangerous_eval", suggestion := none } (by decide)).1,
    (claim_C2_issue_invariants (("eval(x)").toList)
      (scanPython (("eval(x)").toList))
      { severity := Severity.critical, message := "Use of eval", line := 1,
        rule := "dangerous_eval", suggestion := none } (by decide)).2.2.1⟩

/-- Every severity is at or above Low. -/
theorem sevLe_low (s : Severity) : sevLe Severity.low s = true := by
  cases s <;> rfl

/-- Claim C3: the Orchestrator's severity filtering is monotonic — for
identical input, the issues returned with minimum severity High are a subset
of those returned with minimum severity Low, and equal exactly the members
of the unfiltered (merged and sorted) issue sequence with severity ≥ High;
in general the filter retains precisely the issues with severity at or above
the configured minimum. -/
theorem claim_C3_severity_filter_monotone (catalog : List Rule)
    (path : String) (text : List Char) (ctx : List Ctx)
    (cfg : EffectiveConfig) :
    (∀ i, i ∈ (orchestratorRun catalog path text ctx
        { cfg with min_severity := Severity.high }).issues →
      i ∈ (orchestratorRun catalog path text ctx
        { cfg with min_severity := Severity.low }).issues) ∧
    (orchestratorRun catalog path text ctx
        { cfg with min_severity := Severity.high }).issues =
      (unfilteredIssues catalog text ctx cfg).filter
        (fun i => sevLe Severity.high i.severity) ∧
    (∀ m, (orchestratorRun catalog path text ctx
        { cfg with min_severity := m }).issues =
      (unfilteredIssues catalog text ctx cfg).filter
        (fun i => sevLe m i.severity)) := by
  obtain ⟨e, m0, o⟩ := cfg
  have h3 : ∀ m : Severity, (orchestratorRun catalog path text ctx
      ⟨e, m, o⟩).issues =
      (unfilteredIssues catalog text ctx ⟨e, m0, o⟩).filter
        (fun i => sevLe m i.severity) := fun m => rfl
  refine ⟨?_, h3 Severity.high, h3⟩
  intro i hi
  rw [h3 Severity.high] at hi
  rw [h3 Severity.low]
  have hm := List.mem_filter.mp hi
  exact List.mem_filter.mpr ⟨hm.1, sevLe_low i.severity⟩

/-- Claim C3, witness: on `eval(x)` with the default configuration, the
critical eval issue survives the High filter and therefore also the Low
filter. -/
theorem claim_C3_witness :
    ({ severity := Severity.critical, message := "Use of eval", line := 1,
       rule := "dangerous_eval", suggestion := none } : Issue) ∈
      (orchestratorRun vowCatalog ("test.py") (("eval(x)").toList)
        (scanPython (("eval(x)").toList))
        { builtinDefaults with min_severity := Severity.high }).issues ∧
    ({ severity := Severity.critical, message := "Use of eval", line := 1,
       rule := "dangerous_eval", suggestion := none } : Issue) ∈
      (orchestratorRun vowCatalog ("test.py") (("eval(x)").toList)
        (scanPython (("eval(x)").toList))
        { builtinDefaults with min_severity := Severity.low }).issues :=
  ⟨by decide,
    (claim_C3_severity_filter_monotone vowCatalog ("test.py")
      (("eval(x)").toList) (scanPython (("eval(x)").toList))
      builtinDefaults).1
      { severity := Severity.critical, message := "Use of eval", line := 1,
        rule := "dangerous_eval", suggestion := none } (by decide)⟩

/-- Claim C4: configuration precedence — with a configuration file setting
minimum severity Low and a CLI override Critical, the resolved minimum
severity is Critical (CLI wins); and a CLI minimum-severity flag alone does
not change the analyzer set resolved from the configuration file. -/
theorem claim_C4_config_precedence :
    (∀ f : FileConfig, f.min_severity = some Severity.low →
      (resolveConfig (some f)
        { min_severity := some Severity.critical,
          format := none }).min_severity = Severity.critical) ∧
    (∀ (f : Option FileConfig) (s : Severity),
      (resolveConfig f
        { min_severity := some s, format := none }).enabled_analyzers =
      (resolveConfig f
        { min_severity := none, format := none }).enabled_analyzers) := by
  constructor
  · intro f _
    rfl
  · intro f s
    rfl

/-- Claim C4, witness: the precedence theorem applied to a concrete
configuration file with `min_severity: low` and all analyzers enabled. -/
theorem claim_C4_witness :
    ({ analyzers := some [AnalyzerKind.code], 
       min_severity := some Severity.low,
       output := none } : FileConfig).min_severity = some Severity.low ∧
    (resolveConfig
      (some { analyzers := some [AnalyzerKind.code],
              min_severity := some Severity.low, output := none })
      { min_severity := some Severity.critical,
        format := none }).min_severity = Severity.critical :=
  ⟨rfl,
    claim_C4_config_precedence.1
      { analyzers := some [AnalyzerKind.code],
        min_severity := some Severity.low, output := none } rfl⟩

/-- Claim C5: the Orchestrator is a pure function of its immutable inputs —
any two runs on the same (catalog, path, source text, classification,
effective configuration) produce the same `AnalysisResult`, with issue
sequences equal element for element. -/
theorem claim_C5_deterministic (catalog : List Rule) (path : String)
    (text : List Char) (ctx : List Ctx) (cfg : EffectiveConfig)
    (r1 r2 : AnalysisResult)
    (h1 : r1 = orchestratorRun catalog path text ctx cfg)
    (h2 : r2 = orchestratorRun catalog path text ctx cfg) :
    r1 = r2 ∧ r1.issues = r2.issues := by
  subst h1
  subst h2
  exact ⟨rfl, rfl⟩

/-- Claim C5, witness: two runs on the `os.path.exist` test line coincide. -/
theorem claim_C5_witness :
    orchestratorRun vowCatalog ("test.py") existLine (scanPython existLine)
        builtinDefaults =
      orchestratorRun vowCatalog ("test.py") existLine (scanPython existLine)
        builtinDefaults :=
  (claim_C5_deterministic vowCatalog ("test.py") existLine
    (scanPython existLine) builtinDefaults _ _ rfl rfl).1

/-- Claim C6: on the Python line `if os.path.exist("file.txt"):` the
Hallucinated-API analyzer yields exactly one issue; its rule identifies the
wrong-member pattern and its suggestion contains `exists`. -/
theorem claim_C6_os_path_exist :
    hallucinatedAnalyzer pythonRules existLine (scanPython existLine) =
      [{ severity := Severity.high,
         message := "Call to non-existent method os.path.exist",
         line := 1, rule := "hallucinated_signature",
         suggestion := some ("Use os.path.exists() instead") }] ∧
    containsSub (("exists").toList)
      (("Use os.path.exists() instead").toList) = true := by
  constructor
  · decide
  · decide
